import Mathlib

/-!
Verification development for the rfbzero repository.

Layer 1 embeds src/rfbzero/zeroD_model_1e_vs_1e.py (the electrochemical cell
model) over the real numbers: the Python float arithmetic is modelled by exact
real arithmetic, `math.log` by `Real.log`, and `x ** y` by real exponentiation.
Fallible functions (those that raise `ValueError` on negative concentrations)
return `Option`.

Layer 2 embeds src/src/rfbzero/experiment.py (recorder, cycle-mode state
machines and the ConstantCurrent orchestrator) over the rational numbers so
that concrete runs evaluate by `decide`.  The cell class used by that file,
`redox_flow_cell.ZeroDModel`, is not part of the repository sources available
here; its operations consumed by the experiment layer are therefore modelled
from the specification as an abstract oracle, and its snapshot and revert
behaviour is modelled from the specification text.
-/

namespace RFBSpec

/-! ## Layer 1: zeroD_model_1e_vs_1e.py over ℝ -/

/-- Faraday constant (C/mol), the value of scipy `Faraday constant`. -/
def F : ℝ := 96485.33212331001

/-- Molar gas constant (J/K/mol), the value of scipy `R`. -/
def R : ℝ := 8.31446261815324

/-- Temperature in Kelvins, for S.T.P. -/
def TEMPERATURE : ℝ := 298

/-- `NERNST_CONST = (R * TEMPERATURE) / F` as in the source module header. -/
noncomputable def NERNST_CONST : ℝ := R * TEMPERATURE / F

/-- State and static parameters of `ZeroDModel` from zeroD_model_1e_vs_1e.py.
`const_i_ex` is the field the constructor computes as
`F * roughness_factor * geometric_area`. -/
structure ZeroDModel where
  cls_volume : ℝ
  ncls_volume : ℝ
  c_ox_cls : ℝ
  c_red_cls : ℝ
  c_ox_ncls : ℝ
  c_red_ncls : ℝ
  init_ocv : ℝ
  resistance : ℝ
  k_0_cls : ℝ
  k_0_ncls : ℝ
  alpha_cls : ℝ
  alpha_ncls : ℝ
  geometric_area : ℝ
  cls_negolyte : Bool
  time_increment : ℝ
  k_mt : ℝ
  const_i_ex : ℝ
  n_cls : ℤ
  n_ncls : ℤ

namespace ZeroDModel

/-- `ZeroDModel._exchange_current`: Butler-Volmer exchange currents of the two
redox couples; division by 1000 converts L to cm^3. -/
noncomputable def _exchange_current (m : ZeroDModel) : ℝ × ℝ :=
  let i_0_cls := m.const_i_ex * m.k_0_cls * (m.c_red_cls ^ m.alpha_cls)
    * (m.c_ox_cls ^ (1 - m.alpha_cls)) * 0.001
  let i_0_ncls := m.const_i_ex * m.k_0_ncls * (m.c_red_ncls ^ m.alpha_ncls)
    * (m.c_ox_ncls ^ (1 - m.alpha_ncls)) * 0.001
  (i_0_cls, i_0_ncls)

/-- `ZeroDModel._limiting_current`: limiting current of a single reservoir. -/
def _limiting_current (m : ZeroDModel) (c_lim : ℝ) : ℝ :=
  F * m.k_mt * c_lim * m.geometric_area * 0.001

/-- `ZeroDModel.limiting_concentration`: selects the depleted species per side
for the given direction and computes the pair of limiting currents. -/
def limiting_concentration (m : ZeroDModel) (charge : Bool) : ℝ × ℝ :=
  if (m.cls_negolyte && charge) || (!m.cls_negolyte && !charge) then
    (m._limiting_current m.c_ox_cls, m._limiting_current m.c_red_ncls)
  else
    (m._limiting_current m.c_red_cls, m._limiting_current m.c_ox_ncls)

/-- `ZeroDModel._activation_overpotential`: combined activation overpotential,
`NERNST_CONST * (log(z_ncls + (z_ncls^2+1)**0.5) + log(z_cls + (z_cls^2+1)**0.5))`
with `z = |current| / (2 i_0)`. -/
noncomputable def _activation_overpotential (current i_0_cls i_0_ncls : ℝ) : ℝ :=
  let z_cls := |current| / (2 * i_0_cls)
  let z_ncls := |current| / (2 * i_0_ncls)
  NERNST_CONST * (Real.log (z_ncls + (z_ncls ^ 2 + 1) ^ ((1 : ℝ) / 2))
    + Real.log (z_cls + (z_cls ^ 2 + 1) ^ ((1 : ℝ) / 2)))

/-- `ZeroDModel.negative_concentrations`: true if any of the four
concentrations is below zero. -/
noncomputable def negative_concentrations (m : ZeroDModel) : Bool :=
  decide (m.c_ox_cls < 0) || decide (m.c_red_cls < 0)
    || decide (m.c_ox_ncls < 0) || decide (m.c_red_ncls < 0)

/-- The value computed by `ZeroDModel._mass_transport_overpotential` once the
negative-concentration guard has passed (equation 8 of the paper). -/
noncomputable def _mass_transport_overpotential_val (m : ZeroDModel) (charge : Bool)
    (current i_lim_cls i_lim_ncls : ℝ) : ℝ :=
  let c_tot_cls := m.c_red_cls + m.c_ox_cls
  let c_tot_ncls := m.c_red_ncls + m.c_ox_ncls
  let i := |current|
  if (m.cls_negolyte && charge) || (!m.cls_negolyte && !charge) then
    NERNST_CONST * Real.log ((1 - (c_tot_cls * i) / (m.c_red_cls * i_lim_cls + m.c_ox_cls * i))
      * (1 - (c_tot_ncls * i) / (m.c_ox_ncls * i_lim_ncls + m.c_red_ncls * i)))
  else
    NERNST_CONST * Real.log ((1 - (c_tot_cls * i) / (m.c_ox_cls * i_lim_cls + m.c_red_cls * i))
      * (1 - (c_tot_ncls * i) / (m.c_red_ncls * i_lim_ncls + m.c_ox_ncls * i)))

/-- `ZeroDModel._mass_transport_overpotential`: raises (returns `none`) when a
negative concentration is detected, otherwise the value above. -/
noncomputable def _mass_transport_overpotential (m : ZeroDModel) (charge : Bool)
    (current i_lim_cls i_lim_ncls : ℝ) : Option ℝ :=
  if m.negative_concentrations then none
  else some (m._mass_transport_overpotential_val charge current i_lim_cls i_lim_ncls)

/-- The activation overpotential as invoked by `total_overpotential`, with the
exchange currents taken from the model state. -/
noncomputable def act_of (m : ZeroDModel) (current : ℝ) : ℝ :=
  _activation_overpotential current m._exchange_current.1 m._exchange_current.2

/-- The total loss value assembled by `ZeroDModel.total_overpotential`:
ohmic `|I| * resistance` plus activation plus mass transport. -/
noncomputable def total_overpotential_val (m : ZeroDModel) (current : ℝ) (charge : Bool)
    (i_lim_cls i_lim_ncls : ℝ) : ℝ :=
  |current| * m.resistance + m.act_of current
    + m._mass_transport_overpotential_val charge current i_lim_cls i_lim_ncls

/-- `ZeroDModel.total_overpotential`: returns `(n_loss, n_act, n_mt)`; it
propagates the `ValueError` (as `none`) that the mass-transport term raises on
a negative concentration. -/
noncomputable def total_overpotential (m : ZeroDModel) (current : ℝ) (charge : Bool)
    (i_lim_cls i_lim_ncls : ℝ) : Option (ℝ × ℝ × ℝ) :=
  if m.negative_concentrations then none
  else
    some (m.total_overpotential_val current charge i_lim_cls i_lim_ncls,
      m.act_of current,
      m._mass_transport_overpotential_val charge current i_lim_cls i_lim_ncls)

/-- `ZeroDModel.cell_voltage`: add losses to the OCV when charging, subtract
them when discharging. -/
def cell_voltage (ocv losses : ℝ) (charge : Bool) : ℝ :=
  if charge then ocv + losses else ocv - losses

/-- `ZeroDModel.coulomb_counter`: faradaic update of the four concentrations,
then the optional CLS degradation, NCLS degradation and crossover mechanisms;
returns the updated model together with `(delta_ox, delta_red)`. -/
noncomputable def coulomb_counter (m : ZeroDModel) (current : ℝ)
    (cls_degradation ncls_degradation : Option (ℝ → ℝ → ℝ → ℝ × ℝ))
    (crossover_params : Option (ℝ → ℝ → ℝ → ℝ → ℝ → ℝ → ℝ → ℝ × ℝ × ℝ × ℝ × ℝ × ℝ)) :
    ZeroDModel × ℝ × ℝ :=
  let direction : ℝ := if m.cls_negolyte then 1 else -1
  let delta_cls := ((m.time_increment * current) / (F * m.cls_volume)) * direction
  let delta_ncls := ((m.time_increment * current) / (F * m.ncls_volume)) * direction
  let c_ox_cls := m.c_ox_cls - delta_cls
  let c_red_cls := m.c_red_cls + delta_cls
  let c_ox_ncls := m.c_ox_ncls + delta_ncls
  let c_red_ncls := m.c_red_ncls - delta_ncls
  let delta_ox : ℝ := 0.0
  let delta_red : ℝ := 0.0
  let (c_ox_cls, c_red_cls) := match cls_degradation with
    | some degrade => degrade c_ox_cls c_red_cls m.time_increment
    | none => (c_ox_cls, c_red_cls)
  let (c_ox_ncls, c_red_ncls) := match ncls_degradation with
    | some degrade => degrade c_ox_ncls c_red_ncls m.time_increment
    | none => (c_ox_ncls, c_red_ncls)
  let (c_ox_cls, c_red_cls, c_ox_ncls, c_red_ncls, delta_ox, delta_red) :=
    match crossover_params with
    | some crossover => crossover c_ox_cls c_red_cls c_ox_ncls c_red_ncls
        m.cls_volume m.ncls_volume m.time_increment
    | none => (c_ox_cls, c_red_cls, c_ox_ncls, c_red_ncls, delta_ox, delta_red)
  ({ m with
      c_ox_cls := c_ox_cls
      c_red_cls := c_red_cls
      c_ox_ncls := c_ox_ncls
      c_red_ncls := c_red_ncls }, delta_ox, delta_red)

end ZeroDModel

/-- C4: with no degradation and no crossover, `coulomb_counter` moves exactly
`delta = I * dt / (F * V_reservoir)` from oxidized to reduced species (sign set
by the negolyte assignment, the NCLS moving opposite to the CLS), conserves
`c_ox + c_red` in each reservoir, and returns `(0.0, 0.0)`. -/
theorem coulomb_counter_pure_faradaic (m : ZeroDModel) (current : ℝ) :
    (m.coulomb_counter current none none none).1.c_ox_cls
        = m.c_ox_cls - (if m.cls_negolyte
            then m.time_increment * current / (F * m.cls_volume)
            else -(m.time_increment * current / (F * m.cls_volume)))
    ∧ (m.coulomb_counter current none none none).1.c_red_cls
        = m.c_red_cls + (if m.cls_negolyte
            then m.time_increment * current / (F * m.cls_volume)
            else -(m.time_increment * current / (F * m.cls_volume)))
    ∧ (m.coulomb_counter current none none none).1.c_ox_ncls
        = m.c_ox_ncls - (if m.cls_negolyte
            then -(m.time_increment * current / (F * m.ncls_volume))
            else m.time_increment * current / (F * m.ncls_volume))
    ∧ (m.coulomb_counter current none none none).1.c_red_ncls
        = m.c_red_ncls + (if m.cls_negolyte
            then -(m.time_increment * current / (F * m.ncls_volume))
            else m.time_increment * current / (F * m.ncls_volume))
    ∧ (m.coulomb_counter current none none none).1.c_ox_cls
          + (m.coulomb_counter current none none none).1.c_red_cls
        = m.c_ox_cls + m.c_red_cls
    ∧ (m.coulomb_counter current none none none).1.c_ox_ncls
          + (m.coulomb_counter current none none none).1.c_red_ncls
        = m.c_ox_ncls + m.c_red_ncls
    ∧ (m.coulomb_counter current none none none).2 = (0.0, 0.0) := by
  cases h : m.cls_negolyte <;>
    refine ⟨?_, ?_, ?_, ?_, ?_, ?_, ?_⟩ <;>
      simp [ZeroDModel.coulomb_counter, h] <;>
      ring

/-! ## Layer 2: experiment.py over ℚ -/

/-- Faraday constant as an exact rational, for the executable experiment
layer. -/
def Frat : ℚ := 96485.33212331001

/-- `CycleStatus` from experiment.py. -/
inductive CycleStatus where
  | NORMAL
  | NEGATIVE_CONCENTRATIONS
  | VOLTAGE_LIMIT_REACHED
  | CURRENT_CUTOFF_REACHED
  | LIMITING_CURRENT_REACHED
  | LOW_CAPACITY
  | TIME_DURATION_REACHED
deriving DecidableEq, Repr

/-- The four species concentrations of the cell used by experiment.py. -/
structure Conc where
  c_ox_cls : ℚ
  c_red_cls : ℚ
  c_ox_ncls : ℚ
  c_red_ncls : ℚ
deriving DecidableEq, Repr

/-- Modelled from the spec: the mutable state of `redox_flow_cell.ZeroDModel`
(the cell class experiment.py imports, which is not among the sources
available here).  Besides the four concentrations it retains a snapshot of the
pre-step concentrations, taken by the coulomb-counting update, to support
reverting a step; it also stores the crossover deltas of the last update and
the static fields `time_increment` and `init_ocv` that experiment.py reads. -/
structure Cell where
  conc : Conc
  prev : Conc
  delta_ox : ℚ
  delta_red : ℚ
  time_increment : ℚ
  init_ocv : ℚ
deriving DecidableEq, Repr

/-- Modelled from the spec: the voltage, limiting-current and
concentration-update operations of `redox_flow_cell.ZeroDModel` consumed by
experiment.py, abstracted as an oracle.  `limFn` stands for
`limiting_concentration`, `lossFn` for `total_overpotential` (current and the
two limiting currents against the present concentrations, returning total,
activation and mass-transport losses), `ocvFn` for `open_circuit_voltage`,
`findMin` for the fsolve-based `_find_min_current` (given the OCV and the
current guess), and `mech` for the bound `update_concentrations` closure
(coulomb counting plus configured mechanisms, returning the new
concentrations with the crossover deltas). -/
structure CellOracle where
  limFn : Bool → Conc → ℚ × ℚ
  lossFn : ℚ → ℚ → ℚ → Conc → ℚ × ℚ × ℚ
  ocvFn : Conc → ℚ
  findMin : ℚ → ℚ → ℚ
  mech : ℚ → Conc → Conc × ℚ × ℚ

/-- `redox_flow_cell.ZeroDModel.negative_concentrations` (identical to the
version in zeroD_model_1e_vs_1e.py): true if any concentration is below
zero. -/
def negativeConc (c : Conc) : Bool :=
  decide (c.c_ox_cls < 0) || decide (c.c_red_cls < 0)
    || decide (c.c_ox_ncls < 0) || decide (c.c_red_ncls < 0)

/-- Modelled from the spec: the coulomb-counting update applied through the
`update_concentrations` closure.  It saves the pre-step snapshot, applies the
mechanism-composed update and stores the returned crossover deltas. -/
def cellUpdate (mech : ℚ → Conc → Conc × ℚ × ℚ) (i : ℚ) (cell : Cell) : Cell :=
  let r := mech i cell.conc
  { cell with conc := r.1, prev := cell.conc, delta_ox := r.2.1, delta_red := r.2.2 }

/-- Modelled from the spec: `revert_concentrations` restores the pre-step
snapshot (the concentrations saved by the most recent coulomb-counting
update); the snapshot itself and the deltas are untouched. -/
def revertConcentrations (cell : Cell) : Cell :=
  { cell with conc := cell.prev }

/-- The faradaic concentration update of `coulomb_counter` (no mechanisms)
over ℚ, used to instantiate oracles on concrete runs. -/
def faradaicConc (cls_negolyte : Bool) (dt cls_volume ncls_volume i : ℚ)
    (c : Conc) : Conc :=
  let direction : ℚ := if cls_negolyte then 1 else -1
  let delta_cls := ((dt * i) / (Frat * cls_volume)) * direction
  let delta_ncls := ((dt * i) / (Frat * ncls_volume)) * direction
  { c_ox_cls := c.c_ox_cls - delta_cls
    c_red_cls := c.c_red_cls + delta_cls
    c_ox_ncls := c.c_ox_ncls + delta_ncls
    c_red_ncls := c.c_red_ncls - delta_ncls }

/-- `CyclingProtocolResults`: the recorder.  The pre-sized time-series lists
are initialized by `initResults`; `step` is the next write index. -/
structure Results where
  duration : ℚ
  time_increment : ℚ
  size : ℕ
  charge_first : Bool
  compute_soc : Bool
  step : ℕ
  step_time : List ℚ
  step_is_charge : List Bool
  current : List ℚ
  cell_v : List ℚ
  ocv : List ℚ
  c_ox_cls : List ℚ
  c_red_cls : List ℚ
  c_ox_ncls : List ℚ
  c_red_ncls : List ℚ
  delta_ox : List ℚ
  delta_red : List ℚ
  soc_cls : List ℚ
  soc_ncls : List ℚ
  act : List ℚ
  mt : List ℚ
  loss : List ℚ
  half_cycles : ℕ
  capacity : ℚ
  half_cycle_capacity : List ℚ
  half_cycle_time : List ℚ
  half_cycle_is_charge : List Bool
  charge_cycle_capacity : List ℚ
  charge_cycle_time : List ℚ
  discharge_cycle_capacity : List ℚ
  discharge_cycle_time : List ℚ
deriving DecidableEq, Repr

/-- `CyclingProtocolResults.__init__`: the buffers are pre-sized to
`int(duration / time_increment)` entries, all zero. -/
def initResults (duration time_increment : ℚ) (charge_first : Bool) : Results :=
  let size : ℕ := ⌊duration / time_increment⌋.toNat
  { duration := duration
    time_increment := time_increment
    size := size
    charge_first := charge_first
    compute_soc := true
    step := 0
    step_time := List.replicate size 0
    step_is_charge := List.replicate size false
    current := List.replicate size 0
    cell_v := List.replicate size 0
    ocv := List.replicate size 0
    c_ox_cls := List.replicate size 0
    c_red_cls := List.replicate size 0
    c_ox_ncls := List.replicate size 0
    c_red_ncls := List.replicate size 0
    delta_ox := List.replicate size 0
    delta_red := List.replicate size 0
    soc_cls := List.replicate size 0
    soc_ncls := List.replicate size 0
    act := List.replicate size 0
    mt := List.replicate size 0
    loss := List.replicate size 0
    half_cycles := 0
    capacity := 0
    half_cycle_capacity := []
    half_cycle_time := []
    half_cycle_is_charge := []
    charge_cycle_capacity := []
    charge_cycle_time := []
    discharge_cycle_capacity := []
    discharge_cycle_time := [] }

/-- The state change of `CyclingProtocolResults.record_step`, assuming the
step index is inside the buffers (the Python list writes succeed). -/
def record_step_core (res : Results) (cell : Cell) (charge : Bool)
    (current cell_v ocv n_act n_mt losses : ℚ) : Results :=
  let cls_ox := cell.conc.c_ox_cls
  let cls_red := cell.conc.c_red_cls
  let ncls_ox := cell.conc.c_ox_ncls
  let ncls_red := cell.conc.c_red_ncls
  let zero_total := cls_ox + cls_red = 0 ∨ ncls_ox + ncls_red = 0
  { res with
    capacity := res.capacity + |current| * cell.time_increment
    current := res.current.set res.step current
    cell_v := res.cell_v.set res.step cell_v
    ocv := res.ocv.set res.step ocv
    step_is_charge := res.step_is_charge.set res.step charge
    act := res.act.set res.step n_act
    mt := res.mt.set res.step n_mt
    loss := res.loss.set res.step losses
    c_ox_cls := res.c_ox_cls.set res.step cls_ox
    c_red_cls := res.c_red_cls.set res.step cls_red
    c_ox_ncls := res.c_ox_ncls.set res.step ncls_ox
    c_red_ncls := res.c_red_ncls.set res.step ncls_red
    delta_ox := res.delta_ox.set res.step cell.delta_ox
    delta_red := res.delta_red.set res.step cell.delta_red
    compute_soc := if res.compute_soc ∧ zero_total then false else res.compute_soc
    soc_cls := if res.compute_soc ∧ ¬zero_total then
        res.soc_cls.set res.step (cls_red / (cls_ox + cls_red) * 100)
      else res.soc_cls
    soc_ncls := if res.compute_soc ∧ ¬zero_total then
        res.soc_ncls.set res.step (ncls_red / (ncls_ox + ncls_red) * 100)
      else res.soc_ncls
    step_time := res.step_time.set res.step (res.time_increment * (res.step + 1))
    step := res.step + 1 }

/-- `CyclingProtocolResults.record_step`: the indexed writes raise IndexError
(modelled as `none`) when the step index has reached the length of the
pre-sized buffers. -/
def record_step (res : Results) (cell : Cell) (charge : Bool)
    (current cell_v ocv n_act n_mt losses : ℚ) : Option Results :=
  if res.step < res.current.length then
    some (record_step_core res cell charge current cell_v ocv n_act n_mt losses)
  else none

/-- `CyclingProtocolResults.record_half_cycle`: appends the running capacity,
end time and direction, buckets the capacity and time by direction, and
resets the capacity accumulator. -/
def record_half_cycle (res : Results) (charge : Bool) : Results :=
  let time := (res.step : ℚ) * res.time_increment
  { res with
    half_cycle_capacity := res.half_cycle_capacity ++ [res.capacity]
    half_cycle_time := res.half_cycle_time ++ [time]
    half_cycle_is_charge := res.half_cycle_is_charge ++ [charge]
    half_cycles := res.half_cycles + 1
    charge_cycle_capacity :=
      if charge then res.charge_cycle_capacity ++ [res.capacity]
      else res.charge_cycle_capacity
    charge_cycle_time :=
      if charge then res.charge_cycle_time ++ [time] else res.charge_cycle_time
    discharge_cycle_capacity :=
      if charge then res.discharge_cycle_capacity
      else res.discharge_cycle_capacity ++ [res.capacity]
    discharge_cycle_time :=
      if charge then res.discharge_cycle_time
      else res.discharge_cycle_time ++ [time]
    capacity := 0 }

/-- `CycleMode.check_capacity`: overrides the status to `LOW_CAPACITY` when
the running half-cycle capacity is under 1 coulomb and more than two half
cycles have completed. -/
def check_capacity (res : Results) (cycle_status : CycleStatus) : CycleStatus :=
  if res.capacity < 1 ∧ 2 < res.half_cycles then CycleStatus.LOW_CAPACITY
  else cycle_status

/-- `CycleMode.check_time`: a `NORMAL` status becomes `TIME_DURATION_REACHED`
once the step index has reached the pre-sized capacity. -/
def check_time (res : Results) (cycle_status : CycleStatus) : CycleStatus :=
  if cycle_status ≠ CycleStatus.NORMAL then cycle_status
  else if res.size ≤ res.step then CycleStatus.TIME_DURATION_REACHED
  else CycleStatus.NORMAL

/-- `ConstantCurrentCycleMode`: direction, fixed current, voltage limit, the
capacity-check suppression flag, and the limiting currents computed at
construction. -/
structure CCMode where
  charge : Bool
  current : ℚ
  voltage_limit : ℚ
  voltage_limit_capacity_check : Bool
  current_lim_cls : ℚ
  current_lim_ncls : ℚ
deriving DecidableEq, Repr

/-- `ConstantVoltageCycleMode`: direction, current cutoff, fixed voltage
limit, the working current estimate, and the limiting currents. -/
structure CVMode where
  charge : Bool
  current_cutoff : ℚ
  voltage_limit : ℚ
  current : ℚ
  current_lim_cls : ℚ
  current_lim_ncls : ℚ
deriving DecidableEq, Repr

/-- `ConstantCurrentCycleMode.validate`: fail with
`LIMITING_CURRENT_REACHED` when the demanded current already meets the
limiting currents, else with `VOLTAGE_LIMIT_REACHED` when the voltage at the
present concentrations is already past the limit. -/
def cc_validate (o : CellOracle) (mode : CCMode) (cell : Cell) : CycleStatus :=
  if min mode.current_lim_cls mode.current_lim_ncls ≤ |mode.current| then
    CycleStatus.LIMITING_CURRENT_REACHED
  else
    let losses := (o.lossFn mode.current mode.current_lim_cls mode.current_lim_ncls cell.conc).1
    let ocv := o.ocvFn cell.conc
    let cell_v := if mode.charge then ocv + losses else ocv - losses
    if |mode.voltage_limit| ≤ |cell_v| then CycleStatus.VOLTAGE_LIMIT_REACHED
    else CycleStatus.NORMAL

/-- `ConstantCurrentCycleMode.cycle_step`.  `none` models an uncaught
IndexError escaping from `record_step`. -/
def ccCycleStep (o : CellOracle) (mode : CCMode) (cell : Cell) (res : Results) :
    Option (Cell × Results × CycleStatus) :=
  let cell2 := cellUpdate o.mech mode.current cell
  if negativeConc cell2.conc then
    some (revertConcentrations cell2, res,
      check_capacity res CycleStatus.NEGATIVE_CONCENTRATIONS)
  else
    let l := o.lossFn mode.current mode.current_lim_cls mode.current_lim_ncls cell2.conc
    let ocv := o.ocvFn cell2.conc
    let cell_v := if mode.charge then ocv + l.1 else ocv - l.1
    let cycle_status :=
      if |mode.voltage_limit| ≤ |cell_v| then
        if mode.voltage_limit_capacity_check then
          check_capacity res CycleStatus.VOLTAGE_LIMIT_REACHED
        else CycleStatus.VOLTAGE_LIMIT_REACHED
      else CycleStatus.NORMAL
    match record_step res cell2 mode.charge mode.current cell_v ocv l.2.1 l.2.2 l.1 with
    | none => none
    | some res2 => some (cell2, res2, check_time res2 cycle_status)

/-- The initial solver guess of `ConstantVoltageCycleMode.cycle_step`: when
there is no current estimate it is seeded at 99 percent of the smaller
limiting current, otherwise the previous current is used. -/
def cvGuess (mode : CVMode) : ℚ :=
  if mode.current = 0 then
    99 / 100 * min mode.current_lim_cls mode.current_lim_ncls
  else mode.current

/-- `ConstantVoltageCycleMode.cycle_step`.  The updated mode (its `current`
field is mutated by `_find_min_current`) is returned alongside cell, results
and status; `none` models an uncaught IndexError. -/
def cvCycleStep (o : CellOracle) (mode : CVMode) (cell : Cell) (res : Results) :
    Option (CVMode × Cell × Results × CycleStatus) :=
  if mode.current ≠ 0 ∧
      min mode.current_lim_cls mode.current_lim_ncls ≤ |mode.current| then
    some (mode, cell, res, CycleStatus.LIMITING_CURRENT_REACHED)
  else
    let ocv := o.ocvFn cell.conc
    let cur := o.findMin ocv (cvGuess mode)
    let mode2 := { mode with current := cur }
    if |cur| ≤ |mode.current_cutoff| then
      some (mode2, revertConcentrations cell, res,
        check_capacity res CycleStatus.CURRENT_CUTOFF_REACHED)
    else
      let cell2 := cellUpdate o.mech cur cell
      if negativeConc cell2.conc then
        some (mode2, revertConcentrations cell2, res,
          check_capacity res CycleStatus.NEGATIVE_CONCENTRATIONS)
      else
        match record_step res cell2 mode.charge cur mode.voltage_limit ocv 0 0 0 with
        | none => none
        | some res2 => some (mode2, cell2, res2, check_time res2 CycleStatus.NORMAL)

/-- `CyclingProtocol._validate_cycle_values`: a single positive value expands
to the pair `(value, -value)`; specifying both forms, a non-positive charge
value, a non-negative discharge value, or leaving a split value absent (the
Python comparison with `None` raises) all raise, modelled as `none`. -/
def validate_cycle_values (value value_charge value_discharge : Option ℚ) :
    Option (ℚ × ℚ) :=
  match value with
  | some v =>
    if value_charge.isSome || value_discharge.isSome then none
    else if v ≤ 0 then none
    else some (v, -v)
  | none =>
    match value_charge, value_discharge with
    | some vc, some vd =>
      if vc ≤ 0 then none
      else if 0 ≤ vd then none
      else some (vc, vd)
    | _, _ => none

/-- The configuration a `ConstantCurrent` protocol holds after
construction. -/
structure CCConfig where
  voltage_limit_charge : ℚ
  voltage_limit_discharge : ℚ
  current_charge : ℚ
  current_discharge : ℚ
  charge_first : Bool
deriving DecidableEq, Repr

/-- `ConstantCurrent.__init__`: validates the single or split current values;
`none` models the raised `ValueError`. -/
def mkConstantCurrent (current current_charge current_discharge : Option ℚ)
    (voltage_limit_charge voltage_limit_discharge : ℚ) (charge_first : Bool) :
    Option CCConfig :=
  (validate_cycle_values current current_charge current_discharge).map fun p =>
    { voltage_limit_charge := voltage_limit_charge
      voltage_limit_discharge := voltage_limit_discharge
      current_charge := p.1
      current_discharge := p.2
      charge_first := charge_first }

/-- The `get_cycle_mode` closure of `ConstantCurrent.run`: builds a
constant-current mode for a direction, with the limiting currents computed
from the present concentrations. -/
def cc_get_cycle_mode (cfg : CCConfig) (o : CellOracle) (cell : Cell)
    (charge : Bool) : CCMode :=
  let lims := o.limFn charge cell.conc
  { charge := charge
    current := if charge then cfg.current_charge else cfg.current_discharge
    voltage_limit :=
      if charge then cfg.voltage_limit_charge else cfg.voltage_limit_discharge
    voltage_limit_capacity_check := true
    current_lim_cls := lims.1
    current_lim_ncls := lims.2 }

/-- Failure outcomes of a protocol run: `invalidConfig` models a raised
`ValueError` during validation, `indexOutOfRange` an uncaught IndexError from
the recorder. -/
inductive RunErr where
  | invalidConfig
  | indexOutOfRange
deriving DecidableEq, Repr

/-- The while loop of `ConstantCurrent.run`, with explicit fuel: a
`NEGATIVE_CONCENTRATIONS` or `VOLTAGE_LIMIT_REACHED` step closes the half
cycle and flips direction; any other non-`NORMAL` status ends the run. -/
def ccRunLoop (o : CellOracle) (cfg : CCConfig) :
    ℕ → CCMode → Cell → Results → Except RunErr (Results × CycleStatus)
  | 0, _, _, res => Except.ok (res, CycleStatus.NORMAL)
  | fuel + 1, mode, cell, res =>
    match ccCycleStep o mode cell res with
    | none => Except.error RunErr.indexOutOfRange
    | some (cell2, res2, status) =>
      if status = CycleStatus.NEGATIVE_CONCENTRATIONS
          ∨ status = CycleStatus.VOLTAGE_LIMIT_REACHED then
        let res3 := record_half_cycle res2 mode.charge
        ccRunLoop o cfg fuel (cc_get_cycle_mode cfg o cell2 (!mode.charge)) cell2 res3
      else if status = CycleStatus.NORMAL then
        ccRunLoop o cfg fuel mode cell2 res2
      else Except.ok (res2, status)

/-- `ConstantCurrent.run`: the `_validate_protocol` checks, the initial-mode
validation with a one-time direction skip, then the cycling loop.  The
degradation and crossover wiring of `_validate_protocol` is inside the
oracle `mech` closure. -/
def runConstantCurrent (o : CellOracle) (cfg : CCConfig) (duration : ℚ)
    (cell : Cell) (fuel : ℕ) : Except RunErr (Results × CycleStatus) :=
  if ¬(cfg.voltage_limit_discharge < cell.init_ocv
      ∧ cell.init_ocv < cfg.voltage_limit_charge) then
    Except.error RunErr.invalidConfig
  else if 0 < cell.init_ocv ∧ cfg.voltage_limit_discharge < 0 then
    Except.error RunErr.invalidConfig
  else if negativeConc cell.conc then Except.error RunErr.invalidConfig
  else
    let res := initResults duration cell.time_increment cfg.charge_first
    let mode := cc_get_cycle_mode cfg o cell cfg.charge_first
    if cc_validate o mode cell = CycleStatus.NORMAL then
      ccRunLoop o cfg fuel mode cell res
    else
      let mode2 := cc_get_cycle_mode cfg o cell (!cfg.charge_first)
      if cc_validate o mode2 cell = CycleStatus.NORMAL then
        ccRunLoop o cfg fuel mode2 cell res
      else Except.error RunErr.invalidConfig

/-! ## Shared sample values for concrete evaluations -/

/-- A sample concentration vector. -/
def concA : Conc := ⟨1, 1, 1, 1⟩

/-- A sample cell whose snapshot equals its concentrations. -/
def cellA : Cell := ⟨concA, concA, 0, 0, 1, 0⟩

/-- A sample fresh recorder. -/
def resA : Results := initResults 3 1 true

/-- A sample oracle with inert mechanisms. -/
def oracleA : CellOracle :=
  { limFn := fun _ _ => (2, 3)
    lossFn := fun _ _ _ _ => (0, 0, 0)
    ocvFn := fun _ => 0
    findMin := fun _ g => g
    mech := fun _ c => (c, 0, 0) }

/-! ## Claim C2: check_capacity -/

/-- A recorder state with sub-coulomb capacity after exactly two completed
half cycles. -/
def resC2 : Results := { initResults 3 1 true with capacity := 1/2, half_cycles := 2 }

/-- C2 counterexample: with the running capacity below 1 coulomb and exactly
two half-cycles completed, `check_capacity` does not override to
`LOW_CAPACITY` (the source condition is `half_cycles > 2`, not `≥ 2`). -/
theorem check_capacity_two_half_cycles_cex :
    resC2.capacity < 1 ∧ 2 ≤ resC2.half_cycles
    ∧ check_capacity resC2 CycleStatus.NORMAL = CycleStatus.NORMAL
    ∧ CycleStatus.NORMAL ≠ CycleStatus.LOW_CAPACITY := by
  refine ⟨by norm_num [resC2, initResults], by norm_num [resC2, initResults], ?_, by decide⟩
  norm_num [check_capacity, resC2, initResults]

/-- C2 (amended): `check_capacity` returns `LOW_CAPACITY` exactly when the
running capacity is below 1 coulomb and MORE than two half-cycles (at least
three) have completed, or the input status already is `LOW_CAPACITY`;
otherwise it returns the input status unchanged. -/
theorem check_capacity_characterization (res : Results) (status : CycleStatus) :
    (check_capacity res status = CycleStatus.LOW_CAPACITY ↔
      (res.capacity < 1 ∧ 2 < res.half_cycles) ∨ status = CycleStatus.LOW_CAPACITY)
    ∧ (¬(res.capacity < 1 ∧ 2 < res.half_cycles) → check_capacity res status = status) := by
  unfold check_capacity
  by_cases h : res.capacity < 1 ∧ 2 < res.half_cycles <;> simp [h]

/-- C2 witness: the characterization applied at a concrete recorder state. -/
theorem check_capacity_characterization_witness :
    check_capacity resA CycleStatus.VOLTAGE_LIMIT_REACHED
      = CycleStatus.VOLTAGE_LIMIT_REACHED :=
  (check_capacity_characterization resA CycleStatus.VOLTAGE_LIMIT_REACHED).2 (by decide)

/-! ## Claim C9: record_half_cycle invariants -/

/-- The bookkeeping invariant of the per-half-cycle summary lists. -/
def resultsInvariant (res : Results) : Prop :=
  res.half_cycles = res.half_cycle_capacity.length
  ∧ res.half_cycles = res.half_cycle_time.length
  ∧ res.half_cycles = res.half_cycle_is_charge.length
  ∧ res.charge_cycle_capacity.length + res.discharge_cycle_capacity.length
      = res.half_cycles

instance (res : Results) : Decidable (resultsInvariant res) := by
  unfold resultsInvariant; infer_instance

/-- C9: `record_half_cycle` preserves the summary-list invariant and resets
the capacity accumulator to zero; the invariant holds initially and is also
preserved by `record_step`, so it holds after every `record_half_cycle` call
of a run. -/
theorem record_half_cycle_invariant (res : Results) (b : Bool) (cell : Cell)
    (charge : Bool) (current cell_v ocv n_act n_mt losses d dt : ℚ) (cf : Bool)
    (h : resultsInvariant res) :
    resultsInvariant (record_half_cycle res b)
    ∧ (record_half_cycle res b).capacity = 0
    ∧ resultsInvariant (initResults d dt cf)
    ∧ resultsInvariant
        (record_step_core res cell charge current cell_v ocv n_act n_mt losses) := by
  obtain ⟨h1, h2, h3, h4⟩ := h
  refine ⟨?_, rfl, ?_, ?_⟩
  · unfold resultsInvariant record_half_cycle
    cases b <;> simp <;> omega
  · unfold resultsInvariant initResults
    simp
  · exact ⟨h1, h2, h3, h4⟩

/-- C9 witness: the invariant theorem applied to a fresh recorder. -/
theorem record_half_cycle_invariant_witness :
    resultsInvariant (record_half_cycle (initResults 5 1 true) true)
    ∧ (record_half_cycle (initResults 5 1 true) true).capacity = 0 :=
  ⟨(record_half_cycle_invariant (initResults 5 1 true) true cellA true 0 0 0 0 0 0 1 1 true
      (by decide)).1,
   (record_half_cycle_invariant (initResults 5 1 true) true cellA true 0 0 0 0 0 0 1 1 true
      (by decide)).2.1⟩

/-! ## Claim C10: record_step state-of-charge latch -/

/-- C10: when the total concentration of either reservoir is exactly zero at a
recorded step, `record_step` latches `compute_soc` to false and leaves both
state-of-charge series untouched instead of dividing by zero; once latched, it
stays false and the series are never written again; `record_half_cycle` also
never touches them. -/
theorem record_step_soc_latch (res : Results) (cell : Cell) (charge b : Bool)
    (current cell_v ocv n_act n_mt losses : ℚ) :
    ((cell.conc.c_ox_cls + cell.conc.c_red_cls = 0
        ∨ cell.conc.c_ox_ncls + cell.conc.c_red_ncls = 0) →
      (record_step_core res cell charge current cell_v ocv n_act n_mt losses).compute_soc
          = false
      ∧ (record_step_core res cell charge current cell_v ocv n_act n_mt losses).soc_cls
          = res.soc_cls
      ∧ (record_step_core res cell charge current cell_v ocv n_act n_mt losses).soc_ncls
          = res.soc_ncls)
    ∧ (res.compute_soc = false →
      (record_step_core res cell charge current cell_v ocv n_act n_mt losses).compute_soc
          = false
      ∧ (record_step_core res cell charge current cell_v ocv n_act n_mt losses).soc_cls
          = res.soc_cls
      ∧ (record_step_core res cell charge current cell_v ocv n_act n_mt losses).soc_ncls
          = res.soc_ncls)
    ∧ (res.step < res.current.length →
      record_step res cell charge current cell_v ocv n_act n_mt losses
        = some (record_step_core res cell charge current cell_v ocv n_act n_mt losses))
    ∧ (record_half_cycle res b).compute_soc = res.compute_soc
    ∧ (record_half_cycle res b).soc_cls = res.soc_cls
    ∧ (record_half_cycle res b).soc_ncls = res.soc_ncls := by
  refine ⟨fun hz => ?_, fun hf => ?_, fun hlt => ?_, rfl, rfl, rfl⟩
  · unfold record_step_core
    by_cases hc : res.compute_soc <;> simp [hz, hc]
  · unfold record_step_core
    simp [hf]
  · unfold record_step
    simp [hlt]

/-- A cell whose CLS total concentration is exactly zero. -/
def cellZero : Cell := ⟨⟨0, 0, 1, 1⟩, ⟨0, 0, 1, 1⟩, 0, 0, 1, 0⟩

/-- C10 witness: the latch theorem applied at a depleted CLS reservoir. -/
theorem record_step_soc_latch_witness :
    (record_step_core resA cellZero true 0 0 0 0 0 0).compute_soc = false :=
  ((record_step_soc_latch resA cellZero true true 0 0 0 0 0 0).1
    (Or.inl (by norm_num [cellZero]))).1

/-! ## Claim C5: constant-current step on negative concentrations -/

/-- C5: when the coulomb-counting update drives a concentration negative, the
constant-current step reverts the model to the pre-step concentrations,
records nothing, and returns the capacity-checked `NEGATIVE_CONCENTRATIONS`
status (no exception escapes). -/
theorem cc_step_negative_reverts (o : CellOracle) (mode : CCMode) (cell : Cell)
    (res : Results)
    (h : negativeConc (cellUpdate o.mech mode.current cell).conc = true) :
    ccCycleStep o mode cell res
      = some (revertConcentrations (cellUpdate o.mech mode.current cell), res,
          check_capacity res CycleStatus.NEGATIVE_CONCENTRATIONS)
    ∧ (revertConcentrations (cellUpdate o.mech mode.current cell)).conc = cell.conc := by
  constructor
  · unfold ccCycleStep
    simp [h]
  · rfl

/-- An oracle whose update drives the CLS oxidized concentration negative. -/
def oracleNeg : CellOracle :=
  { oracleA with mech := fun _ c => ({ c with c_ox_cls := -1 }, 0, 0) }

/-- A sample constant-current mode. -/
def ccModeA : CCMode := ⟨true, 1, 1/2, true, 2, 3⟩

/-- C5 witness: the revert theorem applied to a concrete depleting step. -/
theorem cc_step_negative_reverts_witness :
    ccCycleStep oracleNeg ccModeA cellA resA
      = some (revertConcentrations (cellUpdate oracleNeg.mech ccModeA.current cellA), resA,
          check_capacity resA CycleStatus.NEGATIVE_CONCENTRATIONS)
    ∧ (revertConcentrations (cellUpdate oracleNeg.mech ccModeA.current cellA)).conc
        = cellA.conc :=
  cc_step_negative_reverts oracleNeg ccModeA cellA resA (by decide)

/-! ## Claim C6: constant-voltage seeding and limiting-current guard -/

/-- C6: with no current estimate the solver guess is seeded at exactly 99
percent of the smaller limiting current, hence strictly below both (positive)
limiting currents; on a later step whose previous current magnitude meets or
exceeds the smaller limiting current, `cycle_step` returns
`LIMITING_CURRENT_REACHED` with cell and recorder untouched. -/
theorem cv_seed_and_limiting (o : CellOracle) (mode : CVMode) (cell : Cell)
    (res : Results) (h0 : mode.current = 0)
    (hc : 0 < mode.current_lim_cls) (hn : 0 < mode.current_lim_ncls) :
    (cvGuess mode = 99 / 100 * min mode.current_lim_cls mode.current_lim_ncls
      ∧ cvGuess mode < mode.current_lim_cls
      ∧ cvGuess mode < mode.current_lim_ncls)
    ∧ ∀ mode2 : CVMode, mode2.current ≠ 0 →
        min mode2.current_lim_cls mode2.current_lim_ncls ≤ |mode2.current| →
        cvCycleStep o mode2 cell res
          = some (mode2, cell, res, CycleStatus.LIMITING_CURRENT_REACHED) := by
  have hmin : 0 < min mode.current_lim_cls mode.current_lim_ncls := lt_min hc hn
  have hguess : cvGuess mode = 99 / 100 * min mode.current_lim_cls mode.current_lim_ncls := by
    unfold cvGuess
    simp [h0]
  have hlt : cvGuess mode < min mode.current_lim_cls mode.current_lim_ncls := by
    rw [hguess]
    nlinarith
  refine ⟨⟨hguess, lt_of_lt_of_le hlt (min_le_left _ _),
    lt_of_lt_of_le hlt (min_le_right _ _)⟩, fun mode2 hne hge => ?_⟩
  unfold cvCycleStep
  rw [if_pos ⟨hne, hge⟩]

/-- A constant-voltage mode with no current estimate. -/
def cvModeSeed : CVMode := ⟨true, 1/100, 1/2, 0, 2, 3⟩

/-- A constant-voltage mode whose previous current exceeds the limiting
currents. -/
def cvModeLim : CVMode := ⟨true, 1/100, 1/2, 5, 2, 3⟩

/-- C6 witness: seeding and the limiting-current return on concrete modes. -/
theorem cv_seed_and_limiting_witness :
    cvGuess cvModeSeed < cvModeSeed.current_lim_cls
    ∧ cvCycleStep oracleA cvModeLim cellA resA
        = some (cvModeLim, cellA, resA, CycleStatus.LIMITING_CURRENT_REACHED) :=
  ⟨(cv_seed_and_limiting oracleA cvModeSeed cellA resA (by decide) (by decide)
      (by decide)).1.2.1,
   (cv_seed_and_limiting oracleA cvModeSeed cellA resA (by decide) (by decide)
      (by decide)).2 cvModeLim (by decide) (by decide)⟩

/-! ## Claim C1: constant-voltage step at the current cutoff -/

/-- An oracle whose solver reports a current of zero. -/
def oracleCut : CellOracle := { oracleA with findMin := fun _ _ => 0 }

/-- A constant-voltage mode mid-run, with a previous current estimate. -/
def cvModeCut : CVMode := ⟨true, 1/100, 1/2, 1, 5, 5⟩

/-- A cell whose retained snapshot differs from its present concentrations,
as after any previous step whose coulomb count moved concentration. -/
def cellDrift : Cell := ⟨⟨1, 1, 1, 1⟩, ⟨2, 0, 1, 1⟩, 0, 0, 1, 0⟩

/-- C1 counterexample: at the current cutoff the constant-voltage step calls
`revert_concentrations`, so the four concentrations after the call equal the
retained pre-step snapshot, which differs from the concentrations before the
call whenever the previous step moved them. -/
theorem cv_cutoff_changes_concentrations_cex :
    cvCycleStep oracleCut cvModeCut cellDrift resA
      = some ({ cvModeCut with current := 0 }, { cellDrift with conc := cellDrift.prev },
          resA, CycleStatus.CURRENT_CUTOFF_REACHED)
    ∧ ({ cellDrift with conc := cellDrift.prev }).conc ≠ cellDrift.conc
    ∧ check_capacity resA CycleStatus.CURRENT_CUTOFF_REACHED
        = CycleStatus.CURRENT_CUTOFF_REACHED := by
  refine ⟨?_, by decide, ?_⟩
  · unfold cvCycleStep cvGuess
    norm_num [oracleCut, oracleA, cvModeCut, cellDrift, revertConcentrations,
      check_capacity, resA, initResults]
  · norm_num [check_capacity, resA, initResults]

/-- C1 (amended): whenever the guard branches of `cycle_step` are passed and
the solved current magnitude is at or below the configured cutoff, the step
returns the capacity-checked `CURRENT_CUTOFF_REACHED` status without
recording anything, and calls `revert_concentrations`, leaving the four
concentrations equal to the retained pre-step snapshot (the concentrations
before the most recent coulomb-counting update) rather than unchanged. -/
theorem cv_cutoff_reverts (o : CellOracle) (mode : CVMode) (cell : Cell)
    (res : Results)
    (hlim : ¬(mode.current ≠ 0
      ∧ min mode.current_lim_cls mode.current_lim_ncls ≤ |mode.current|))
    (hcut : |o.findMin (o.ocvFn cell.conc) (cvGuess mode)| ≤ |mode.current_cutoff|) :
    cvCycleStep o mode cell res
      = some ({ mode with current := o.findMin (o.ocvFn cell.conc) (cvGuess mode) },
          revertConcentrations cell, res,
          check_capacity res CycleStatus.CURRENT_CUTOFF_REACHED)
    ∧ (revertConcentrations cell).conc = cell.prev := by
  constructor
  · unfold cvCycleStep
    rw [if_neg hlim]
    simp only
    rw [if_pos hcut]
  · rfl

/-- A second drifted cell, for the amended-claim witness. -/
def cellDrift2 : Cell := ⟨⟨3, 1, 2, 2⟩, ⟨4, 0, 2, 2⟩, 0, 0, 1, 0⟩

/-- C1 witness: the amended theorem applied at a concrete cutoff step. -/
theorem cv_cutoff_reverts_witness :
    cvCycleStep oracleCut cvModeCut cellDrift2 resA
      = some ({ cvModeCut with
            current := oracleCut.findMin (oracleCut.ocvFn cellDrift2.conc) (cvGuess cvModeCut) },
          revertConcentrations cellDrift2, resA,
          check_capacity resA CycleStatus.CURRENT_CUTOFF_REACHED)
    ∧ (revertConcentrations cellDrift2).conc = cellDrift2.prev :=
  cv_cutoff_reverts oracleCut cvModeCut cellDrift2 resA
    (by
      intro h
      have := h.2
      norm_num [cvModeCut] at this)
    (by norm_num [oracleCut, oracleA, cvModeCut])

/-! ## Claim C8: single versus split current configuration -/

/-- C8: for positive `X`, single-value validation expands `current=X` to
exactly the split pair `(X, -X)`, so the `ConstantCurrent` protocol built
from `current=X` is identical to the one built from
`current_charge=X, current_discharge=-X` and every run of the two produces
the same half-cycle capacity sequence. -/
theorem constant_current_single_split (X : ℚ) (hX : 0 < X) :
    validate_cycle_values (some X) none none = some (X, -X)
    ∧ validate_cycle_values none (some X) (some (-X)) = some (X, -X)
    ∧ ∀ (vlc vld : ℚ) (cf : Bool) (o : CellOracle) (duration : ℚ) (cell : Cell)
        (fuel : ℕ),
        (mkConstantCurrent (some X) none none vlc vld cf).map
          (fun cfg => (runConstantCurrent o cfg duration cell fuel).map
            (fun r => r.1.half_cycle_capacity))
        = (mkConstantCurrent none (some X) (some (-X)) vlc vld cf).map
          (fun cfg => (runConstantCurrent o cfg duration cell fuel).map
            (fun r => r.1.half_cycle_capacity)) := by
  have h1 : validate_cycle_values (some X) none none = some (X, -X) := by
    unfold validate_cycle_values
    simp [not_le.mpr hX]
  have h2 : validate_cycle_values none (some X) (some (-X)) = some (X, -X) := by
    unfold validate_cycle_values
    simp [not_le.mpr hX, not_le.mpr (neg_neg_of_pos hX)]
  refine ⟨h1, h2, fun vlc vld cf o duration cell fuel => ?_⟩
  unfold mkConstantCurrent
  rw [h1, h2]

/-- C8 witness: the expansion at `X = 3`. -/
theorem constant_current_single_split_witness :
    validate_cycle_values (some 3) none none = some (3, -3) :=
  (constant_current_single_split 3 (by norm_num)).1

/-! ## Claim C3: recorder overflow after a voltage-limit step -/

/-- Starting concentrations for the overflow run. -/
def concC3 : Conc := ⟨2, 0, 2, 2⟩

/-- The cell of the overflow run: symmetric reservoirs of `1/F` litres so one
ampere over the one-second step moves one molar unit. -/
def cellC3 : Cell := ⟨concC3, concC3, 0, 0, 1, 0⟩

/-- The oracle of the overflow run: pure faradaic coulomb counting, an OCV
that follows the CLS reduced concentration, no overpotential losses. -/
def oracleC3 : CellOracle :=
  { limFn := fun _ _ => (10, 10)
    lossFn := fun _ _ _ _ => (0, 0, 0)
    ocvFn := fun c => c.c_red_cls
    findMin := fun _ g => g
    mech := fun i c => (faradaicConc true 1 (1 / Frat) (1 / Frat) i c, 0, 0) }

/-- Constant-current configuration at one ampere between voltage limits of
plus and minus one volt. -/
def cfgC3 : CCConfig := ⟨1, -1, 1, -1, true⟩

/-- C3: a run of duration 1 s with a 1 s time step pre-sizes the buffers to a
single slot; the first step hits the charge voltage limit while filling that
slot, the protocol flips direction, and the next step attempts a recorder
write at index `size`, raising IndexError: the claimed bound on accepted
steps is violated. -/
theorem cc_record_overflow_cex :
    runConstantCurrent oracleC3 cfgC3 1 cellC3 2 = Except.error RunErr.indexOutOfRange
    ∧ (initResults 1 cellC3.time_increment true).size = 1 := by
  constructor
  · have hne : ¬(CycleStatus.VOLTAGE_LIMIT_REACHED = CycleStatus.NORMAL) := by decide
    norm_num [runConstantCurrent, ccRunLoop, ccCycleStep, cc_validate,
      cc_get_cycle_mode, oracleC3, cfgC3, cellC3, concC3, faradaicConc, Frat,
      cellUpdate, negativeConc, revertConcentrations, record_step,
      record_step_core, record_half_cycle, check_capacity, check_time,
      initResults, hne]
  · norm_num [initResults, cellC3]

/-! ## Claim C7: behaviour of total_overpotential in the current magnitude -/

/-- The CLS factor inside the mass-transport logarithm, per direction
branch. -/
noncomputable def mt_factor_cls (m : ZeroDModel) (charge : Bool)
    (i_lim_cls i : ℝ) : ℝ :=
  if (m.cls_negolyte && charge) || (!m.cls_negolyte && !charge) then
    1 - (m.c_red_cls + m.c_ox_cls) * i / (m.c_red_cls * i_lim_cls + m.c_ox_cls * i)
  else
    1 - (m.c_red_cls + m.c_ox_cls) * i / (m.c_ox_cls * i_lim_cls + m.c_red_cls * i)

/-- The NCLS factor inside the mass-transport logarithm, per direction
branch. -/
noncomputable def mt_factor_ncls (m : ZeroDModel) (charge : Bool)
    (i_lim_ncls i : ℝ) : ℝ :=
  if (m.cls_negolyte && charge) || (!m.cls_negolyte && !charge) then
    1 - (m.c_red_ncls + m.c_ox_ncls) * i / (m.c_ox_ncls * i_lim_ncls + m.c_red_ncls * i)
  else
    1 - (m.c_red_ncls + m.c_ox_ncls) * i / (m.c_red_ncls * i_lim_ncls + m.c_ox_ncls * i)

/-- The mass-transport overpotential is the Nernst constant times the
logarithm of the product of the two branch factors at `|current|`. -/
theorem mt_val_eq (m : ZeroDModel) (charge : Bool) (current i_lim_cls i_lim_ncls : ℝ) :
    m._mass_transport_overpotential_val charge current i_lim_cls i_lim_ncls
      = NERNST_CONST * Real.log
          (mt_factor_cls m charge i_lim_cls |current|
            * mt_factor_ncls m charge i_lim_ncls |current|) := by
  by_cases hb : ((m.cls_negolyte && charge) || (!m.cls_negolyte && !charge)) = true <;>
    simp only [ZeroDModel._mass_transport_overpotential_val, mt_factor_cls,
      mt_factor_ncls, hb, if_true, if_false, Bool.not_eq_true] <;>
    simp [hb]

/-- The Nernst constant is strictly positive. -/
theorem NERNST_CONST_pos : 0 < NERNST_CONST := by
  unfold NERNST_CONST R TEMPERATURE F
  norm_num

/-- `T j / (A + B j)` is strictly increasing on nonnegative `j` when `T, A`
are positive and `B` is nonnegative. -/
theorem frac_lt_frac {T A B j1 j2 : ℝ} (hT : 0 < T) (hA : 0 < A) (hB : 0 ≤ B)
    (h0 : 0 ≤ j1) (h : j1 < j2) :
    T * j1 / (A + B * j1) < T * j2 / (A + B * j2) := by
  have hd1 : 0 < A + B * j1 := add_pos_of_pos_of_nonneg hA (mul_nonneg hB h0)
  have hd2 : 0 < A + B * j2 := add_pos_of_pos_of_nonneg hA (mul_nonneg hB (h0.trans h.le))
  rw [div_lt_div_iff hd1 hd2]
  nlinarith [mul_lt_mul_of_pos_left h (mul_pos hT hA)]

/-- A mass-transport branch factor strictly decreases in the current
magnitude. -/
theorem one_sub_frac_strict_anti {T A B j1 j2 : ℝ} (hT : 0 < T) (hA : 0 < A)
    (hB : 0 ≤ B) (h0 : 0 ≤ j1) (h : j1 < j2) :
    1 - T * j2 / (A + B * j2) < 1 - T * j1 / (A + B * j1) :=
  sub_lt_sub_left (frac_lt_frac hT hA hB h0 h) 1

/-- The source log form `log (z + (z^2+1)^0.5)` is the inverse hyperbolic
sine. -/
theorem log_form_arsinh (z : ℝ) :
    Real.log (z + (z ^ 2 + 1) ^ ((1 : ℝ) / 2)) = Real.arsinh z := by
  rw [← Real.sqrt_eq_rpow, add_comm (z ^ 2) 1]
  rfl

/-- The activation overpotential, with positive exchange currents, strictly
increases in the current magnitude. -/
theorem act_of_strict_mono (m : ZeroDModel) {i1 i2 : ℝ}
    (hc : 0 < m._exchange_current.1) (hn : 0 < m._exchange_current.2)
    (h12 : |i1| < |i2|) : m.act_of i1 < m.act_of i2 := by
  have e : ∀ i : ℝ, m.act_of i
      = NERNST_CONST * (Real.arsinh (|i| / (2 * m._exchange_current.2))
          + Real.arsinh (|i| / (2 * m._exchange_current.1))) := by
    intro i
    simp only [ZeroDModel.act_of, ZeroDModel._activation_overpotential, log_form_arsinh]
  rw [e, e]
  have h2c : (0 : ℝ) < 2 * m._exchange_current.1 := by linarith
  have h2n : (0 : ℝ) < 2 * m._exchange_current.2 := by linarith
  refine mul_lt_mul_of_pos_left (add_lt_add ?_ ?_) NERNST_CONST_pos <;>
    rw [Real.arsinh_lt_arsinh] <;>
    exact (div_lt_div_right (by assumption)).mpr h12

/-- C7 (amended): for a fixed model state, direction and limiting-current
pair, the ohmic-plus-activation part of `total_overpotential` is strictly
increasing in `|current|` whenever the exchange currents are positive, while
the mass-transport part is strictly decreasing in `|current|` on states with
positive concentrations, positive limiting currents and positive logarithm
factors; the returned total is the sum of the two parts, so it is not in
general increasing in `|current|`. -/
theorem total_overpotential_components (m : ZeroDModel) (charge : Bool)
    (i_lim_cls i_lim_ncls i1 i2 : ℝ) (h12 : |i1| < |i2|) :
    (0 < m._exchange_current.1 → 0 < m._exchange_current.2 → 0 ≤ m.resistance →
      |i1| * m.resistance + m.act_of i1 < |i2| * m.resistance + m.act_of i2)
    ∧ (0 < m.c_ox_cls → 0 < m.c_red_cls → 0 < m.c_ox_ncls → 0 < m.c_red_ncls →
        0 < i_lim_cls → 0 < i_lim_ncls →
        0 < mt_factor_cls m charge i_lim_cls |i2| →
        0 < mt_factor_ncls m charge i_lim_ncls |i2| →
        m._mass_transport_overpotential_val charge i2 i_lim_cls i_lim_ncls
          < m._mass_transport_overpotential_val charge i1 i_lim_cls i_lim_ncls)
    ∧ (m.negative_concentrations = false →
        m.total_overpotential i1 charge i_lim_cls i_lim_ncls
          = some (|i1| * m.resistance + m.act_of i1
                + m._mass_transport_overpotential_val charge i1 i_lim_cls i_lim_ncls,
              m.act_of i1,
              m._mass_transport_overpotential_val charge i1 i_lim_cls i_lim_ncls)) := by
  refine ⟨fun hc hn hR => ?_, fun hoc hrc hon hrn hlc hln hf2c hf2n => ?_, fun hneg => ?_⟩
  · exact add_lt_add_of_le_of_lt (mul_le_mul_of_nonneg_right h12.le hR)
      (act_of_strict_mono m hc hn h12)
  · rw [mt_val_eq, mt_val_eq]
    have h0 : (0 : ℝ) ≤ |i1| := abs_nonneg i1
    have hcls : mt_factor_cls m charge i_lim_cls |i2|
        < mt_factor_cls m charge i_lim_cls |i1| := by
      unfold mt_factor_cls
      split
      · exact one_sub_frac_strict_anti (add_pos hrc hoc) (mul_pos hrc hlc) hoc.le h0 h12
      · exact one_sub_frac_strict_anti (add_pos hrc hoc) (mul_pos hoc hlc) hrc.le h0 h12
    have hncls : mt_factor_ncls m charge i_lim_ncls |i2|
        < mt_factor_ncls m charge i_lim_ncls |i1| := by
      unfold mt_factor_ncls
      split
      · exact one_sub_frac_strict_anti (add_pos hrn hon) (mul_pos hon hln) hrn.le h0 h12
      · exact one_sub_frac_strict_anti (add_pos hrn hon) (mul_pos hrn hln) hon.le h0 h12
    refine mul_lt_mul_of_pos_left ?_ NERNST_CONST_pos
    refine Real.log_lt_log (mul_pos hf2c hf2n) ?_
    exact (mul_lt_mul_of_pos_right hcls hf2n).trans
      (mul_lt_mul_of_pos_left hncls (lt_trans hf2c hcls))
  · unfold ZeroDModel.total_overpotential ZeroDModel.total_overpotential_val
    simp [hneg]

/-- The concrete model of the non-monotonicity counterexample: unit
concentrations, zero resistance, exchange currents equal to one ampere. -/
noncomputable def M7 : ZeroDModel :=
  { cls_volume := 1, ncls_volume := 1
    c_ox_cls := 1, c_red_cls := 1, c_ox_ncls := 1, c_red_ncls := 1
    init_ocv := 0, resistance := 0
    k_0_cls := 1, k_0_ncls := 1
    alpha_cls := 1/2, alpha_ncls := 1/2
    geometric_area := 5, cls_negolyte := true
    time_increment := 1, k_mt := 0.8, const_i_ex := 1000
    n_cls := 1, n_ncls := 1 }

/-- The exchange currents of `M7` are both one. -/
theorem M7_exchange : M7._exchange_current = (1, 1) := by
  unfold ZeroDModel._exchange_current M7
  norm_num [Real.one_rpow]

/-- `M7` has no negative concentration. -/
theorem M7_nonneg : M7.negative_concentrations = false := by
  norm_num [ZeroDModel.negative_concentrations, M7]

/-- C7 counterexample: at unit concentrations and limiting currents, with the
mass-transport logarithm factors positive at both currents, the total
overpotential returned by `total_overpotential` at current `9/10` is strictly
below the one at current `0`, although `|0| < |9/10|`: the total loss is not
increasing in the current magnitude. -/
theorem total_overpotential_not_monotone_cex :
    |(0 : ℝ)| < |(9/10 : ℝ)|
    ∧ 0 < mt_factor_cls M7 true 1 |(9/10 : ℝ)|
    ∧ 0 < mt_factor_ncls M7 true 1 |(9/10 : ℝ)|
    ∧ 0 < mt_factor_cls M7 true 1 |(0 : ℝ)|
    ∧ 0 < mt_factor_ncls M7 true 1 |(0 : ℝ)|
    ∧ M7.total_overpotential (9/10) true 1 1
        = some (M7.total_overpotential_val (9/10) true 1 1,
            M7.act_of (9/10), M7._mass_transport_overpotential_val true (9/10) 1 1)
    ∧ M7.total_overpotential_val (9/10) true 1 1
        < M7.total_overpotential_val 0 true 1 1 := by
  have habs9 : |(9/10 : ℝ)| = 9/10 := abs_of_nonneg (by norm_num)
  refine ⟨?_, ?_, ?_, ?_, ?_, ?_, ?_⟩
  · rw [abs_zero, habs9]; norm_num
  · rw [habs9]; norm_num [mt_factor_cls, M7]
  · rw [habs9]; norm_num [mt_factor_ncls, M7]
  · rw [abs_zero]; norm_num [mt_factor_cls, M7]
  · rw [abs_zero]; norm_num [mt_factor_ncls, M7]
  · unfold ZeroDModel.total_overpotential
    simp [M7_nonneg]
  · have hact9 : M7.act_of (9/10)
        = NERNST_CONST * (Real.arsinh (9/20) + Real.arsinh (9/20)) := by
      simp only [ZeroDModel.act_of, ZeroDModel._activation_overpotential,
        log_form_arsinh, M7_exchange, habs9]
      norm_num
    have hmt9 : M7._mass_transport_overpotential_val true (9/10) 1 1
        = NERNST_CONST * Real.log (1/19 * (1/19)) := by
      rw [mt_val_eq, habs9]
      norm_num [mt_factor_cls, mt_factor_ncls, M7]
    have hact0 : M7.act_of 0 = 0 := by
      simp only [ZeroDModel.act_of, ZeroDModel._activation_overpotential,
        log_form_arsinh, M7_exchange, abs_zero]
      norm_num
    have hmt0 : M7._mass_transport_overpotential_val true 0 1 1 = 0 := by
      rw [mt_val_eq, abs_zero]
      norm_num [mt_factor_cls, mt_factor_ncls, M7]
    have hsq : Real.sqrt (1 + (9/20 : ℝ) ^ 2) < 2 := by
      rw [show (1 + (9/20 : ℝ) ^ 2) = 481/400 by norm_num,
        Real.sqrt_lt' (by norm_num : (0 : ℝ) < 2)]
      norm_num
    have hars : Real.arsinh (9/20 : ℝ) < Real.log 19 := by
      have he : Real.arsinh (9/20 : ℝ)
          = Real.log (9/20 + Real.sqrt (1 + (9/20 : ℝ) ^ 2)) := rfl
      rw [he]
      refine Real.log_lt_log ?_ ?_
      · have := Real.sqrt_nonneg (1 + (9/20 : ℝ) ^ 2)
        linarith
      · linarith
    have hlog361 : Real.log ((1 : ℝ)/19 * (1/19)) = -(Real.log 19 + Real.log 19) := by
      rw [show ((1 : ℝ)/19 * (1/19)) = ((19 : ℝ) * 19)⁻¹ by norm_num, Real.log_inv,
        Real.log_mul (by norm_num) (by norm_num)]
    have key : NERNST_CONST * (Real.arsinh (9/20 : ℝ) + Real.arsinh (9/20))
        + NERNST_CONST * -(Real.log 19 + Real.log 19) < 0 := by
      have h1 : Real.arsinh (9/20 : ℝ) + Real.arsinh (9/20)
          - (Real.log 19 + Real.log 19) < 0 := by linarith
      have h2 := mul_neg_of_pos_of_neg NERNST_CONST_pos h1
      calc NERNST_CONST * (Real.arsinh (9/20 : ℝ) + Real.arsinh (9/20))
            + NERNST_CONST * -(Real.log 19 + Real.log 19)
          = NERNST_CONST * (Real.arsinh (9/20 : ℝ) + Real.arsinh (9/20)
              - (Real.log 19 + Real.log 19)) := by ring
        _ < 0 := h2
    unfold ZeroDModel.total_overpotential_val
    rw [hact9, hmt9, hact0, hmt0, habs9, abs_zero, hlog361,
      show M7.resistance = 0 from rfl]
    linarith [key]

/-- C7 witness: the ohmic-plus-activation monotonicity applied to `M7`
between currents 0 and 1. -/
theorem total_overpotential_components_witness :
    |(0 : ℝ)| * M7.resistance + M7.act_of 0 < |(1 : ℝ)| * M7.resistance + M7.act_of 1 :=
  (total_overpotential_components M7 true 1 1 0 1
      (by rw [abs_zero, abs_one]; norm_num)).1
    (by rw [M7_exchange]; norm_num) (by rw [M7_exchange]; norm_num)
    (show M7.resistance = 0 from rfl).ge

end RFBSpec
